import Mathlib

/-!
Verification development for the LectureFlow backend
(`src/backend/app/agents/orchestrator.py` and `src/backend/app/main.py`).

The Python program is shallowly embedded: the LangGraph state schema
`OverallState` becomes a Lean structure, each graph node becomes a pure
function from adapter outcomes to its declared output record, LangGraph's
channel semantics (`operator.add` reducer on `agent_execution_order`,
last-write-wins on the remaining keys) becomes explicit apply functions,
and the two SSE generator paths of `/api/process/stream` become functions
producing the list of emitted events.  External adapters (YouTube fetch,
Gemini summarizer, GPT concept extractor) and the client disconnect signal
are parameters of the embedding, so a run is a pure function of their
behaviours.
-/

namespace LectureFlow

/-- A JSON-like dictionary payload; the claims never inspect its structure,
only whether whole fields are copied or left alone. -/
abbrev Dict := List (String × String)

/-! ## State schema (`orchestrator.py`, `OverallState`) -/

/-- `OverallState` from `orchestrator.py` lines 38-65: the single state
record threaded through the LangGraph graph.  `agent_execution_order` is
the key annotated with the `operator.add` reducer. -/
structure OverallState where
  video_url : String
  transcript : String
  video_metadata : Dict
  lecture_notes : String
  ai_tools : List Dict
  concepts : List Dict
  content_type : Dict
  agent_execution_order : List String
deriving DecidableEq, Repr

/-- `TranscriptOutput` (orchestrator.py lines 69-73): what the root node writes. -/
structure TranscriptOutput where
  transcript : String
  video_metadata : Dict
  agent_execution_order : List String
deriving DecidableEq, Repr

/-- `SummarizerOutput` (orchestrator.py lines 76-79): what the summarize node writes. -/
structure SummarizerOutput where
  lecture_notes : String
  agent_execution_order : List String
deriving DecidableEq, Repr

/-- `ConceptExtractorOutput` (orchestrator.py lines 82-87): what the
extract_concepts node writes. -/
structure ConceptExtractorOutput where
  ai_tools : List Dict
  concepts : List Dict
  content_type : Dict
  agent_execution_order : List String
deriving DecidableEq, Repr

/-- LangGraph channel update for a `TranscriptOutput`: keys without a
reducer are overwritten, `agent_execution_order` is merged by list
concatenation (`operator.add`). -/
def applyTranscript (s : OverallState) (o : TranscriptOutput) : OverallState :=
  { s with
    transcript := o.transcript
    video_metadata := o.video_metadata
    agent_execution_order := s.agent_execution_order ++ o.agent_execution_order }

/-- LangGraph channel update for a `SummarizerOutput`. -/
def applySummarizer (s : OverallState) (o : SummarizerOutput) : OverallState :=
  { s with
    lecture_notes := o.lecture_notes
    agent_execution_order := s.agent_execution_order ++ o.agent_execution_order }

/-- LangGraph channel update for a `ConceptExtractorOutput`. -/
def applyConcepts (s : OverallState) (o : ConceptExtractorOutput) : OverallState :=
  { s with
    ai_tools := o.ai_tools
    concepts := o.concepts
    content_type := o.content_type
    agent_execution_order := s.agent_execution_order ++ o.agent_execution_order }

/-! ## Adapters and graph execution -/

/-- Names of the external task adapters a run may invoke (used to observe
which adapters were called). -/
inductive AdapterCall where
  | fetch
  | summarize
  | extract
deriving DecidableEq, Repr

/-- Behaviour of the three external adapters for one run.  `fetch` models
`YouTubeTranscriptExtractor.extract` (transcript text and metadata dict, or
an exception), `summarize` models `LectureSummarizer.summarize`, `extract`
models `ConceptExtractor.extract` mapped to `(ai_tools_compat, concepts,
content_type)` as done in `extract_concepts_node`. -/
structure Adapters where
  fetch : String → Except String (String × Dict)
  summarize : String → Option String → Except String String
  extract : String → Option String → Except String (List Dict × List Dict × Dict)

/-- Lookup of a key in a metadata dict, modelling
`state["video_metadata"].get("video_title")`. -/
def dictGet (d : Dict) (k : String) : Option String :=
  (d.find? (fun p => p.1 == k)).map (fun p => p.2)

/-- The initial state built by `MultiAgentOrchestrator.process`
(orchestrator.py lines 261-270). -/
def initialState (video_url : String) : OverallState :=
  { video_url := video_url
    transcript := ""
    video_metadata := []
    lecture_notes := ""
    ai_tools := []
    concepts := []
    content_type := []
    agent_execution_order := [] }

/-- `fetch_transcript_node` (orchestrator.py lines 94-113) as a function of
the fetch adapter's outcome. -/
def fetch_transcript_node (res : String × Dict) : TranscriptOutput :=
  { transcript := res.1
    video_metadata := res.2
    agent_execution_order := ["fetch_transcript"] }

/-- `summarize_node` (orchestrator.py lines 116-139) as a function of the
summarizer adapter's outcome. -/
def summarize_node (notes : String) : SummarizerOutput :=
  { lecture_notes := notes
    agent_execution_order := ["summarize"] }

/-- `extract_concepts_node` (orchestrator.py lines 142-183) as a function of
the extractor adapter's outcome. -/
def extract_concepts_node (res : List Dict × List Dict × Dict) : ConceptExtractorOutput :=
  { ai_tools := res.1
    concepts := res.2.1
    content_type := res.2.2
    agent_execution_order := ["extract_concepts"] }

/-- Execution of the compiled graph of `create_multi_agent_graph`
(orchestrator.py lines 190-228) starting from `initialState`:
`START → fetch_transcript → [summarize, extract_concepts] → END`.
The root node runs first; on its failure the run fails with neither leaf
launched.  Both leaves then read the post-root state and their updates are
merged in a scheduler-chosen order, abstracted by `sumFirst`.  The result
is the final state (or the raised error) together with the list of adapter
calls made. -/
def runGraph (ad : Adapters) (url : String) (sumFirst : Bool) :
    Except String OverallState × List AdapterCall :=
  let s0 := initialState url
  match ad.fetch url with
  | .error e => (.error e, [.fetch])
  | .ok fo =>
    let s1 := applyTranscript s0 (fetch_transcript_node fo)
    let title := dictGet s1.video_metadata "video_title"
    match ad.summarize s1.transcript title, ad.extract s1.transcript title with
    | .ok notes, .ok ex =>
      let o2 := summarize_node notes
      let o3 := extract_concepts_node ex
      let s2 := if sumFirst then applyConcepts (applySummarizer s1 o2) o3
                else applySummarizer (applyConcepts s1 o3) o2
      (.ok s2, [.fetch, .summarize, .extract])
    | .error e, _ => (.error e, [.fetch, .summarize, .extract])
    | .ok _, .error e => (.error e, [.fetch, .summarize, .extract])

end LectureFlow

namespace LectureFlow

/-! ## C1: topology of the execution trace -/

/-- C1: for every successful run of the task graph, the final
`agent_execution_order` has length exactly 3, contains each of
`fetch_transcript`, `summarize`, `extract_concepts` exactly once, and
`fetch_transcript` appears strictly before both leaf names, regardless of
the order in which the two parallel leaf updates are merged. -/
theorem C1_trace_topology (ad : Adapters) (url : String) (sumFirst : Bool)
    (s : OverallState) (h : (runGraph ad url sumFirst).1 = .ok s) :
    s.agent_execution_order.length = 3 ∧
    s.agent_execution_order.count "fetch_transcript" = 1 ∧
    s.agent_execution_order.count "summarize" = 1 ∧
    s.agent_execution_order.count "extract_concepts" = 1 ∧
    s.agent_execution_order.indexOf "fetch_transcript" <
      s.agent_execution_order.indexOf "summarize" ∧
    s.agent_execution_order.indexOf "fetch_transcript" <
      s.agent_execution_order.indexOf "extract_concepts" := by
  unfold runGraph at h
  rcases hf : ad.fetch url with e | fo <;> rw [hf] at h
  · simp at h
  · rcases hs : ad.summarize (applyTranscript (initialState url)
        (fetch_transcript_node fo)).transcript
        (dictGet (applyTranscript (initialState url)
          (fetch_transcript_node fo)).video_metadata "video_title") with e | notes <;>
      rcases he : ad.extract (applyTranscript (initialState url)
        (fetch_transcript_node fo)).transcript
        (dictGet (applyTranscript (initialState url)
          (fetch_transcript_node fo)).video_metadata "video_title") with e' | ex <;>
      simp only [hs, he] at h <;> try simp at h
    rcases h with rfl
    cases sumFirst <;>
      simp [applyTranscript, applySummarizer, applyConcepts, initialState,
        fetch_transcript_node, summarize_node, extract_concepts_node,
        List.indexOf, List.count] <;> decide

/-- Concrete witness for C1: adapters that always succeed. -/
def okAdapters : Adapters :=
  { fetch := fun _ => .ok ("transcript text", [("video_title", "t")])
    summarize := fun _ _ => .ok "notes"
    extract := fun _ _ => .ok ([], [], []) }

/-- Witness for C1 at a concrete successful run. -/
theorem C1_trace_topology_witness :
    ((runGraph okAdapters "url" true).1).isOk = true ∧
    ∀ s, (runGraph okAdapters "url" true).1 = .ok s →
      s.agent_execution_order.length = 3 := by
  refine ⟨by decide, fun s h => (C1_trace_topology okAdapters "url" true s h).1⟩

/-! ## C8: order-independence of the two leaf updates -/

/-- C8: applying the summarizer's and the concept extractor's partial
updates to any state in either order yields states that agree on every
field except `agent_execution_order`; each such field is written by at most
one of the two updates, and the trace is merged by list concatenation. -/
theorem C8_leaf_updates_commute (s : OverallState)
    (o2 : SummarizerOutput) (o3 : ConceptExtractorOutput) :
    let sA := applyConcepts (applySummarizer s o2) o3
    let sB := applySummarizer (applyConcepts s o3) o2
    sA.video_url = sB.video_url ∧
    sA.transcript = sB.transcript ∧
    sA.video_metadata = sB.video_metadata ∧
    sA.lecture_notes = sB.lecture_notes ∧
    sA.ai_tools = sB.ai_tools ∧
    sA.concepts = sB.concepts ∧
    sA.content_type = sB.content_type ∧
    sA.lecture_notes = o2.lecture_notes ∧
    sA.ai_tools = o3.ai_tools ∧
    sA.concepts = o3.concepts ∧
    sA.content_type = o3.content_type ∧
    sA.video_url = s.video_url ∧
    sA.transcript = s.transcript ∧
    sA.video_metadata = s.video_metadata ∧
    sA.agent_execution_order =
      s.agent_execution_order ++ o2.agent_execution_order ++ o3.agent_execution_order ∧
    sB.agent_execution_order =
      s.agent_execution_order ++ o3.agent_execution_order ++ o2.agent_execution_order := by
  simp [applySummarizer, applyConcepts]

/-! ## Chunking of cached lecture notes (main.py lines 530-540)

The cached replay path iterates `for i in range(0, len(notes), chunk_size)`
over the stored string and yields `notes[i:i + chunk_size]`.  This is
embedded as a fuel-based recursion over the character list (the fuel equals
the list length at the top-level call, so it never runs out). -/

/-- `chunk_size = 50` (main.py line 532). -/
def chunkSize : Nat := 50

/-- One slicing step of the cached-path chunk loop; the fuel argument just
bounds the recursion depth. -/
def chunkGo : Nat → List Char → List (List Char)
  | 0, _ => []
  | _ + 1, [] => []
  | fuel + 1, c :: rest =>
    (c :: rest).take chunkSize :: chunkGo fuel ((c :: rest).drop chunkSize)

/-- The list of chunks the cached path produces from a stored notes string. -/
def chunkNotes (cs : List Char) : List (List Char) :=
  chunkGo cs.length cs

theorem chunkGo_nil (fuel : Nat) : chunkGo fuel [] = [] := by
  cases fuel <;> rfl

theorem chunkGo_ne_nil (fuel : Nat) (cs : List Char) (hne : cs ≠ [])
    (h : cs.length ≤ fuel) : chunkGo fuel cs ≠ [] := by
  cases fuel with
  | zero =>
    cases cs with
    | nil => exact absurd rfl hne
    | cons c rest => simp at h
  | succ fuel =>
    cases cs with
    | nil => exact absurd rfl hne
    | cons c rest => simp [chunkGo]

/-- Full specification of the chunk loop: the chunks concatenate back to
the input, every chunk is nonempty of length at most `chunkSize`, and every
chunk except possibly the last has length exactly `chunkSize`. -/
theorem chunkGo_spec : ∀ (fuel : Nat) (cs : List Char), cs.length ≤ fuel →
    (chunkGo fuel cs).flatten = cs ∧
    (∀ c ∈ chunkGo fuel cs, c ≠ [] ∧ c.length ≤ chunkSize) ∧
    (∀ c ∈ (chunkGo fuel cs).dropLast, c.length = chunkSize) := by
  intro fuel
  induction fuel with
  | zero =>
    intro cs h
    rw [Nat.le_zero, List.length_eq_zero] at h
    subst h
    simp [chunkGo]
  | succ fuel ih =>
    intro cs h
    match cs with
    | [] => simp [chunkGo]
    | c :: rest =>
      by_cases hlen : (c :: rest).length ≤ chunkSize
      · have hdrop : (c :: rest).drop chunkSize = [] := List.drop_eq_nil_of_le hlen
        have htake : (c :: rest).take chunkSize = c :: rest := List.take_of_length_le hlen
        simp only [chunkGo, hdrop, chunkGo_nil, htake]
        refine ⟨by simp, ?_, by simp⟩
        intro c' hc'
        simp only [List.mem_singleton] at hc'
        subst hc'
        exact ⟨by simp, hlen⟩
      · push_neg at hlen
        have hdlen : ((c :: rest).drop chunkSize).length ≤ fuel := by
          simp only [List.length_drop, List.length_cons, chunkSize] at h ⊢
          omega
        have hdne : (c :: rest).drop chunkSize ≠ [] := by
          intro hcon
          have := congrArg List.length hcon
          simp only [List.length_drop, List.length_nil] at this
          omega
        obtain ⟨ih1, ih2, ih3⟩ := ih _ hdlen
        have htl : (c :: rest).take chunkSize ≠ [] := by simp [chunkSize]
        have htlen : ((c :: rest).take chunkSize).length = chunkSize := by
          simp only [List.length_take]
          omega
        have hrec : chunkGo fuel ((c :: rest).drop chunkSize) ≠ [] :=
          chunkGo_ne_nil fuel _ hdne hdlen
        simp only [chunkGo]
        refine ⟨by simp [ih1], ?_, ?_⟩
        · intro c' hc'
          rcases List.mem_cons.mp hc' with hc' | hc'
          · subst hc'
            exact ⟨htl, le_of_eq htlen⟩
          · exact ih2 c' hc'
        · intro c' hc'
          rw [List.dropLast_cons_of_ne_nil hrec] at hc'
          rcases List.mem_cons.mp hc' with hc' | hc'
          · subst hc'
            exact htlen
          · exact ih3 c' hc'

theorem chunkNotes_spec (cs : List Char) :
    (chunkNotes cs).flatten = cs ∧
    (∀ c ∈ chunkNotes cs, c ≠ [] ∧ c.length ≤ chunkSize) ∧
    (∀ c ∈ (chunkNotes cs).dropLast, c.length = chunkSize) :=
  chunkGo_spec cs.length cs le_rfl

/-! ## SSE events of `/api/process/stream` (main.py lines 472-719)

Each `yield` of the `event_generator` becomes one `SSEEvent`; only the
payloads the claims inspect are kept (the chunk text and error message). -/

/-- One server-sent event of the streaming endpoint, tagged as in the
`"type"` field of the JSON payloads. -/
inductive SSEEvent where
  | statusEv (msg : String)
  | cacheInfo (from_cache : Bool)
  | metadataEv
  | chunk (data : String)
  | notesDone
  | conceptsEv
  | toolsEv
  | completeEv
  | errorEv (msg : String)
deriving DecidableEq, Repr

/-- The kind tag of an event, for shape comparisons. -/
inductive EventKind where
  | statusK
  | cacheK
  | metadataK
  | chunkK
  | notesDoneK
  | conceptsK
  | toolsK
  | completeK
  | errorK
deriving DecidableEq, Repr

/-- Kind of an event. -/
def SSEEvent.kind : SSEEvent → EventKind
  | .statusEv _ => .statusK
  | .cacheInfo _ => .cacheK
  | .metadataEv => .metadataK
  | .chunk _ => .chunkK
  | .notesDone => .notesDoneK
  | .conceptsEv => .conceptsK
  | .toolsEv => .toolsK
  | .completeEv => .completeK
  | .errorEv _ => .errorK

/-- Kind sequence of an event list. -/
def kindsOf (l : List SSEEvent) : List EventKind :=
  l.map SSEEvent.kind

/-- Behaviour of the external adapters during one fresh streaming run:
`fetch` is the outcome of `extractor.extract(video_url)` (transcript and
metadata, or an exception); `sumChunks` are the text fragments produced by
`summarizer.summarize_stream` before it either ends normally
(`sumErr = none`) or raises (`sumErr = some msg`); `extractRes` is the
outcome of `concept_extractor.extract`. -/
structure StreamAdapters where
  fetch : Except String (String × Dict)
  sumChunks : List String
  sumErr : Option String
  extractRes : Except String (List Dict × List Dict × Dict)
deriving Repr

/-- The summarizer streaming loop (main.py lines 623-636): before yielding
each chunk the generator awaits `request.is_disconnected()`; `disc n` is
the value of the n-th disconnect check of the whole generator.  Returns
the emitted events and whether the loop returned early on a disconnect. -/
def chunkLoop (disc : Nat → Bool) : Nat → List String → List SSEEvent × Bool
  | _, [] => ([], false)
  | n, c :: rest =>
    if disc n then ([], true)
    else
      let r := chunkLoop disc (n + 1) rest
      (SSEEvent.chunk c :: r.1, r.2)

/-- The fresh path of `event_generator` (main.py lines 565-719), as the
list of events it yields together with the adapter calls it makes.  The
non-forced variant has already emitted the "Checking cache..." status and
found no cached row; the forced variant emits the `from_cache: false`
cache event instead (lines 571-579).  Disconnect checks happen after the
metadata event (line 607) and before each summary chunk (line 628); the
`except` handlers at lines 705-719 convert any raised error into a single
terminal error event. -/
def freshRun (force : Bool) (ab : StreamAdapters) (disc : Nat → Bool) :
    List SSEEvent × List AdapterCall :=
  let pre : List SSEEvent :=
    if force then [.cacheInfo false] else [.statusEv "Checking cache..."]
  match ab.fetch with
  | .error e => (pre ++ [.statusEv "Fetching transcript...", .errorEv e], [.fetch])
  | .ok _ =>
    let head := pre ++ [.statusEv "Fetching transcript...", .metadataEv]
    if disc 0 then (head, [.fetch])
    else
      let head2 := head ++ [.statusEv "Generating lecture notes..."]
      let loop := chunkLoop disc 1 ab.sumChunks
      if loop.2 then (head2 ++ loop.1, [.fetch, .summarize])
      else
        match ab.sumErr with
        | some m => (head2 ++ loop.1 ++ [.errorEv m], [.fetch, .summarize])
        | none =>
          let head3 := head2 ++ loop.1 ++
            [.notesDone, .statusEv "Extracting key concepts..."]
          match ab.extractRes with
          | .error e => (head3 ++ [.errorEv e], [.fetch, .summarize, .extract])
          | .ok _ =>
            (head3 ++ [.conceptsEv, .toolsEv, .completeEv],
             [.fetch, .summarize, .extract])

/-- The cached replay path of `event_generator` (main.py lines 491-563),
given the stored lecture-notes string: cache info, metadata, the stored
notes re-sliced into `chunkSize`-character chunks, `notes_complete`, the
stored tools, `complete`.  The generator performs no disconnect check and
invokes no task adapter on this path. -/
def cachedEvents (notes : String) : List SSEEvent :=
  [.cacheInfo true, .metadataEv]
  ++ (chunkNotes notes.data).map (fun c => SSEEvent.chunk (String.mk c))
  ++ [.notesDone, .toolsEv, .completeEv]

/-- The chunk payloads of an event list, in emission order. -/
def chunkPayloads (l : List SSEEvent) : List String :=
  l.filterMap (fun e => match e with | .chunk s => some s | _ => none)

/-- Whether an `Except` value is a success. -/
def exOk {ε α : Type} : Except ε α → Bool
  | .ok _ => true
  | .error _ => false

theorem chunkLoop_no_disc (disc : Nat → Bool) (hd : ∀ n, disc n = false) :
    ∀ (cs : List String) (n : Nat),
      chunkLoop disc n cs = (cs.map SSEEvent.chunk, false) := by
  intro cs
  induction cs with
  | nil => intro n; rfl
  | cons c rest ih =>
    intro n
    simp [chunkLoop, hd n, ih (n + 1)]

theorem chunkLoop_all_chunks (disc : Nat → Bool) :
    ∀ (cs : List String) (n : Nat) (e : SSEEvent), e ∈ (chunkLoop disc n cs).1 →
      e.kind = .chunkK := by
  intro cs
  induction cs with
  | nil => intro n e he; simp [chunkLoop] at he
  | cons c rest ih =>
    intro n e he
    simp only [chunkLoop] at he
    by_cases hdn : disc n
    · simp [hdn] at he
    · simp only [hdn, if_neg, Bool.false_eq_true, ite_false, List.mem_cons] at he
      rcases he with he | he
      · subst he; rfl
      · exact ih (n + 1) e he

/-- Normal form of the fresh path when the client stays connected and all
three tasks succeed. -/
theorem freshRun_success (force : Bool) (ab : StreamAdapters) (disc : Nat → Bool)
    (hd : ∀ n, disc n = false) (hf : exOk ab.fetch = true) (hs : ab.sumErr = none)
    (he : exOk ab.extractRes = true) :
    freshRun force ab disc =
      ((if force then [SSEEvent.cacheInfo false]
        else [SSEEvent.statusEv "Checking cache..."])
       ++ [.statusEv "Fetching transcript...", .metadataEv,
           .statusEv "Generating lecture notes..."]
       ++ ab.sumChunks.map SSEEvent.chunk
       ++ [.notesDone, .statusEv "Extracting key concepts...",
           .conceptsEv, .toolsEv, .completeEv],
       [.fetch, .summarize, .extract]) := by
  unfold freshRun
  rcases hfe : ab.fetch with e | fo
  · rw [hfe] at hf; simp [exOk] at hf
  · rcases hee : ab.extractRes with e | ex
    · rw [hee] at he; simp [exOk] at he
    · simp only [hd 0, chunkLoop_no_disc disc hd, hs, Bool.false_eq_true, ite_false]
      simp

/-! ## Event-shape predicate (StreamEvent ordering invariant) -/

/-- Every occurrence of `a` is strictly before every occurrence of `b`:
the list splits into a part without `b` followed by a part without `a`. -/
def allBefore (a b : EventKind) (l : List EventKind) : Prop :=
  ∃ l₁ l₂, l = l₁ ++ l₂ ∧ b ∉ l₁ ∧ a ∉ l₂

/-- The kind-ordering shape invariant of the stream: metadata precedes
every content chunk, every chunk precedes the single `notes_complete`,
which precedes the structured-item events (`tools`, `concepts`), and the
single `complete` event is last. -/
def goodShape (ks : List EventKind) : Prop :=
  allBefore .metadataK .chunkK ks ∧
  allBefore .chunkK .notesDoneK ks ∧
  ks.count .notesDoneK = 1 ∧
  allBefore .notesDoneK .toolsK ks ∧
  allBefore .notesDoneK .conceptsK ks ∧
  ks.count .completeK = 1 ∧
  ks.getLast? = some .completeK

theorem count_chunkBlock (cs : List EventKind) (hcs : ∀ k ∈ cs, k = .chunkK)
    (a : EventKind) (ha : a ≠ .chunkK) : cs.count a = 0 := by
  rw [List.count_eq_zero]
  intro hmem
  exact ha (hcs a hmem)

/-- Shape invariant for any list of the form
`A ++ chunk-block ++ (notes_complete :: B ++ [complete])` with the
membership side conditions the two generator paths satisfy. -/
theorem goodShape_split (A M B : List EventKind)
    (hM : ∀ k ∈ M, k = .chunkK)
    (hA1 : EventKind.chunkK ∉ A) (hA2 : EventKind.notesDoneK ∉ A)
    (hA3 : EventKind.toolsK ∉ A) (hA4 : EventKind.conceptsK ∉ A)
    (hA5 : EventKind.completeK ∉ A)
    (hB1 : EventKind.notesDoneK ∉ B) (hB2 : EventKind.chunkK ∉ B)
    (hB3 : EventKind.metadataK ∉ B) (hB4 : EventKind.completeK ∉ B) :
    goodShape (A ++ M ++ (EventKind.notesDoneK :: B ++ [EventKind.completeK])) := by
  have hMnd : EventKind.notesDoneK ∉ M := fun h => by cases hM _ h
  have hMmd : EventKind.metadataK ∉ M := fun h => by cases hM _ h
  have hMtl : EventKind.toolsK ∉ M := fun h => by cases hM _ h
  have hMcp : EventKind.conceptsK ∉ M := fun h => by cases hM _ h
  have hMcm : EventKind.completeK ∉ M := fun h => by cases hM _ h
  refine ⟨?_, ?_, ?_, ?_, ?_, ?_, ?_⟩
  · exact ⟨A, M ++ (.notesDoneK :: B ++ [.completeK]), by simp, hA1, by
      simp [hMmd, hB3]⟩
  · exact ⟨A ++ M, .notesDoneK :: B ++ [.completeK], by simp, by
      simp [hA2, hMnd], by simp [hB2]⟩
  · simp [List.count_append, List.count_cons,
      count_chunkBlock M hM .notesDoneK (by simp),
      List.count_eq_zero.mpr hA2, List.count_eq_zero.mpr hB1]
  · exact ⟨A ++ M ++ [.notesDoneK], B ++ [.completeK], by simp, by
      simp [hA3, hMtl], by simp [hB1]⟩
  · exact ⟨A ++ M ++ [.notesDoneK], B ++ [.completeK], by simp, by
      simp [hA4, hMcp], by simp [hB1]⟩
  · simp [List.count_append, List.count_cons,
      count_chunkBlock M hM .completeK (by simp),
      List.count_eq_zero.mpr hA5, List.count_eq_zero.mpr hB4]
  · rw [show A ++ M ++ (EventKind.notesDoneK :: B ++ [EventKind.completeK]) =
      (A ++ M ++ (EventKind.notesDoneK :: B)) ++ [EventKind.completeK] by simp]
    exact List.getLast?_concat _

theorem kind_map_chunk (cs : List String) :
    cs.map (SSEEvent.kind ∘ SSEEvent.chunk) =
      List.replicate cs.length EventKind.chunkK := by
  induction cs with
  | nil => rfl
  | cons c rest ih =>
    simp only [List.map_cons, List.length_cons, List.replicate_succ, ih]
    rfl

theorem kind_map_chunk_mk (cs : List (List Char)) :
    cs.map (SSEEvent.kind ∘ fun c => SSEEvent.chunk (String.mk c)) =
      List.replicate cs.length EventKind.chunkK := by
  induction cs with
  | nil => rfl
  | cons c rest ih =>
    simp only [List.map_cons, List.length_cons, List.replicate_succ, ih]
    rfl

/-! ## C2: shape equivalence of the cached replay and the live fresh path -/

/-- C2 (amended): replaying a stored result and running the live fresh
path both produce event sequences satisfying the kind-ordering shape
invariant — metadata precedes every content chunk, the single
`notes_complete` follows all chunks and precedes the structured-item
events, and `complete` is last.  (The two paths do not, however, emit the
same set of event kinds: see the counterexample.) -/
theorem C2_shape_invariant (notes : String) (force : Bool) (ab : StreamAdapters)
    (disc : Nat → Bool) (hd : ∀ n, disc n = false) (hf : exOk ab.fetch = true)
    (hs : ab.sumErr = none) (he : exOk ab.extractRes = true) :
    goodShape (kindsOf (cachedEvents notes)) ∧
    goodShape (kindsOf (freshRun force ab disc).1) := by
  constructor
  · have h : kindsOf (cachedEvents notes) =
        [.cacheK, .metadataK]
        ++ List.replicate (chunkNotes notes.data).length EventKind.chunkK
        ++ (EventKind.notesDoneK :: [.toolsK] ++ [.completeK]) := by
      simp [kindsOf, cachedEvents, List.map_map, kind_map_chunk_mk, SSEEvent.kind]
    rw [h]
    exact goodShape_split _ _ _ (fun k hk => List.eq_of_mem_replicate hk)
      (by simp) (by simp) (by simp) (by simp) (by simp)
      (by simp) (by simp) (by simp) (by simp)
  · rw [freshRun_success force ab disc hd hf hs he]
    cases force
    · have h : kindsOf (([SSEEvent.statusEv "Checking cache..."]
          ++ [.statusEv "Fetching transcript...", .metadataEv,
              .statusEv "Generating lecture notes..."]
          ++ ab.sumChunks.map SSEEvent.chunk
          ++ [.notesDone, .statusEv "Extracting key concepts...",
              .conceptsEv, .toolsEv, .completeEv] : List SSEEvent)) =
          [.statusK, .statusK, .metadataK, .statusK]
          ++ List.replicate ab.sumChunks.length EventKind.chunkK
          ++ (EventKind.notesDoneK ::
              [.statusK, .conceptsK, .toolsK] ++ [.completeK]) := by
        simp [kindsOf, List.map_map, kind_map_chunk, SSEEvent.kind]
      simp only [ite_false, Bool.false_eq_true]
      rw [h]
      exact goodShape_split _ _ _ (fun k hk => List.eq_of_mem_replicate hk)
        (by simp) (by simp) (by simp) (by simp) (by simp)
        (by simp) (by simp) (by simp) (by simp)
    · have h : kindsOf (([SSEEvent.cacheInfo false]
          ++ [.statusEv "Fetching transcript...", .metadataEv,
              .statusEv "Generating lecture notes..."]
          ++ ab.sumChunks.map SSEEvent.chunk
          ++ [.notesDone, .statusEv "Extracting key concepts...",
              .conceptsEv, .toolsEv, .completeEv] : List SSEEvent)) =
          [.cacheK, .statusK, .metadataK, .statusK]
          ++ List.replicate ab.sumChunks.length EventKind.chunkK
          ++ (EventKind.notesDoneK ::
              [.statusK, .conceptsK, .toolsK] ++ [.completeK]) := by
        simp [kindsOf, List.map_map, kind_map_chunk, SSEEvent.kind]
      simp only [ite_true]
      rw [h]
      exact goodShape_split _ _ _ (fun k hk => List.eq_of_mem_replicate hk)
        (by simp) (by simp) (by simp) (by simp) (by simp)
        (by simp) (by simp) (by simp) (by simp)

/-- Adapters whose three tasks all succeed, for concrete stream runs. -/
def abOk : StreamAdapters :=
  { fetch := .ok ("t", [])
    sumChunks := ["a"]
    sumErr := none
    extractRes := .ok ([], [], []) }

/-- A client that never disconnects. -/
def discNever : Nat → Bool := fun _ => false

/-- Counterexample to C2 as stated: the fresh path emits a `concepts`
event while the cached replay path never does, so the two paths do not
emit the same set of event kinds. -/
theorem C2_counterexample :
    EventKind.conceptsK ∈ kindsOf (freshRun false abOk discNever).1 ∧
    EventKind.conceptsK ∉ kindsOf (cachedEvents "x") := by
  constructor
  · simp [freshRun, abOk, discNever, chunkLoop, kindsOf, SSEEvent.kind]
  · simp [cachedEvents, kindsOf, chunkNotes, chunkGo, SSEEvent.kind, chunkSize]

/-- Witness for C2 (amended) at a concrete record and run. -/
theorem C2_shape_invariant_witness :
    goodShape (kindsOf (cachedEvents "x")) ∧
    goodShape (kindsOf (freshRun false abOk discNever).1) :=
  C2_shape_invariant "x" false abOk discNever (fun _ => rfl) rfl rfl rfl

/-! ## C6: a task failure produces exactly one terminal error event -/

/-- Normal form of the fresh path when the transcript fetch raises. -/
theorem freshRun_fetch_err (force : Bool) (ab : StreamAdapters) (disc : Nat → Bool)
    (e : String) (hfe : ab.fetch = .error e) :
    (freshRun force ab disc).1 =
      ((if force then [SSEEvent.cacheInfo false]
        else [SSEEvent.statusEv "Checking cache..."])
       ++ [.statusEv "Fetching transcript..."]) ++ [.errorEv e] := by
  unfold freshRun
  rw [hfe]
  simp

/-- Normal form of the fresh path when the summary stream raises after its
chunks, with the client still connected. -/
theorem freshRun_sum_err (force : Bool) (ab : StreamAdapters) (disc : Nat → Bool)
    (m : String) (hd : ∀ n, disc n = false) (hfo : exOk ab.fetch = true)
    (hse : ab.sumErr = some m) :
    (freshRun force ab disc).1 =
      ((if force then [SSEEvent.cacheInfo false]
        else [SSEEvent.statusEv "Checking cache..."])
       ++ [.statusEv "Fetching transcript...", .metadataEv,
           .statusEv "Generating lecture notes..."]
       ++ ab.sumChunks.map SSEEvent.chunk) ++ [.errorEv m] := by
  unfold freshRun
  rcases hfe : ab.fetch with e | fo
  · rw [hfe] at hfo; simp [exOk] at hfo
  · simp only [hd 0, chunkLoop_no_disc disc hd, hse, Bool.false_eq_true, ite_false]
    simp

/-- Normal form of the fresh path when concept extraction raises, with the
client still connected. -/
theorem freshRun_extract_err (force : Bool) (ab : StreamAdapters) (disc : Nat → Bool)
    (e : String) (hd : ∀ n, disc n = false) (hfo : exOk ab.fetch = true)
    (hse : ab.sumErr = none) (hee : ab.extractRes = .error e) :
    (freshRun force ab disc).1 =
      ((if force then [SSEEvent.cacheInfo false]
        else [SSEEvent.statusEv "Checking cache..."])
       ++ [.statusEv "Fetching transcript...", .metadataEv,
           .statusEv "Generating lecture notes..."]
       ++ ab.sumChunks.map SSEEvent.chunk
       ++ [.notesDone, .statusEv "Extracting key concepts..."]) ++ [.errorEv e] := by
  unfold freshRun
  rcases hfe : ab.fetch with e' | fo
  · rw [hfe] at hfo; simp [exOk] at hfo
  · simp only [hd 0, chunkLoop_no_disc disc hd, hse, hee, Bool.false_eq_true, ite_false]
    simp

theorem kinds_concat_err (X : List SSEEvent) (e : String) :
    kindsOf (X ++ [SSEEvent.errorEv e]) = kindsOf X ++ [.errorK] := by
  simp [kindsOf]
  rfl

/-- C6: on any streaming run along the fresh path in which a task fails
(transcript fetch raises, the summary stream raises, or concept extraction
raises) and the client stays connected, the generator emits exactly one
error event and it is the last event of the stream — no event of any kind
follows it; in the embedding every failure is converted into this terminal
event instead of escaping the generator. -/
theorem C6_single_terminal_error (force : Bool) (ab : StreamAdapters)
    (disc : Nat → Bool) (hd : ∀ n, disc n = false)
    (hfail : exOk ab.fetch = false ∨ ab.sumErr.isSome = true ∨
      exOk ab.extractRes = false) :
    (kindsOf (freshRun force ab disc).1).count .errorK = 1 ∧
    (kindsOf (freshRun force ab disc).1).getLast? = some .errorK := by
  rcases hfe : ab.fetch with e | fo
  · rw [freshRun_fetch_err force ab disc e hfe, kinds_concat_err]
    refine ⟨?_, List.getLast?_concat _⟩
    cases force <;> simp [kindsOf, SSEEvent.kind, List.count_append]
  · rcases hse : ab.sumErr with _ | m
    · rcases hee : ab.extractRes with e | ex
      · rw [freshRun_extract_err force ab disc e hd (by rw [hfe]; rfl) hse hee,
          kinds_concat_err]
        refine ⟨?_, List.getLast?_concat _⟩
        cases force <;>
          simp [kindsOf, List.count_append, List.map_map, kind_map_chunk,
            SSEEvent.kind, List.count_replicate]
      · rw [hfe, hse, hee] at hfail
        simp [exOk] at hfail
    · rw [freshRun_sum_err force ab disc m hd (by rw [hfe]; rfl) hse,
        kinds_concat_err]
      refine ⟨?_, List.getLast?_concat _⟩
      cases force <;>
        simp [kindsOf, List.count_append, List.map_map, kind_map_chunk,
          SSEEvent.kind, List.count_replicate]

/-- Adapters whose concept extraction raises. -/
def abExtractFail : StreamAdapters :=
  { fetch := .ok ("t", [])
    sumChunks := ["a", "b"]
    sumErr := none
    extractRes := .error "boom" }

/-- Witness for C6 at a concrete failing run. -/
theorem C6_single_terminal_error_witness :
    (kindsOf (freshRun false abExtractFail discNever).1).count .errorK = 1 ∧
    (kindsOf (freshRun false abExtractFail discNever).1).getLast? = some .errorK :=
  C6_single_terminal_error false abExtractFail discNever (fun _ => rfl)
    (Or.inr (Or.inr rfl))

/-! ## C5: cancellation on the fresh path -/

/-- C5 (amended): on the live fresh path a disconnect check runs right
after the metadata event and again before each content chunk; if the
client is already disconnected at the post-metadata check, the stream ends
at the metadata event and no content-chunk or later event is delivered,
and a check that reports a disconnect stops the chunk loop before it emits
anything further.  (The cached replay path performs no such checks: see
the counterexample.) -/
theorem C5_fresh_cancellation (force : Bool) (ab : StreamAdapters)
    (disc : Nat → Bool) (h0 : disc 0 = true) (hf : exOk ab.fetch = true) :
    (freshRun force ab disc).1 =
      (if force then [SSEEvent.cacheInfo false]
       else [SSEEvent.statusEv "Checking cache..."])
      ++ [.statusEv "Fetching transcript...", .metadataEv] ∧
    ∀ (d : Nat → Bool) (cs : List String) (n : Nat), d n = true →
      (chunkLoop d n cs).1 = [] := by
  constructor
  · unfold freshRun
    rcases hfe : ab.fetch with e | fo
    · rw [hfe] at hf; simp [exOk] at hf
    · simp [h0]
  · intro d cs n hdn
    cases cs with
    | nil => rfl
    | cons c rest => simp [chunkLoop, hdn]

/-- A client that is disconnected from the start. -/
def discAlways : Nat → Bool := fun _ => true

/-- Witness for C5 (amended) at a concrete cancelled run. -/
theorem C5_fresh_cancellation_witness :
    (freshRun false abOk discAlways).1 =
      [SSEEvent.statusEv "Checking cache...",
       .statusEv "Fetching transcript...", .metadataEv] ∧
    ∀ (d : Nat → Bool) (cs : List String) (n : Nat), d n = true →
      (chunkLoop d n cs).1 = [] := by
  have h := C5_fresh_cancellation false abOk discAlways rfl rfl
  simpa using h

/-! ## Database model (`app.database.models.Video` / `ProcessingResult`)

Only the columns the claims inspect are kept.  Timestamps are integer
seconds; `timedelta(days=d)` is `d * secondsPerDay`. -/

/-- One row of the `videos` table. -/
structure Video where
  id : Nat
  video_id : String
  video_url : String
  title : String
  channel_name : String
  duration : String
  times_processed : Nat
  last_processed_at : Int
deriving DecidableEq, Repr

/-- One row of the `processing_results` table. -/
structure ProcessingResultRow where
  video_fk : Nat
  transcript_text : String
  lecture_notes : String
  ai_tools : List Dict
  agent_execution_order : List String
  created_at : Int
deriving DecidableEq, Repr

/-- The relational store seen by the backend: the two tables plus the next
primary key the database would assign. -/
structure DB where
  videos : List Video
  results : List ProcessingResultRow
  nextId : Nat
deriving DecidableEq, Repr

/-- Seconds in one day. -/
def secondsPerDay : Int := 86400

/-- The joined candidate rows of the cache query in `get_cached_result`
(main.py lines 407-418): `ProcessingResult` rows joined to their `Video`
row, restricted to the requested `video_id` and to
`created_at > now - cache_days` (strict, as in the SQL `>`). -/
def candidatePairs (db : DB) (now : Int) (cacheDays : Int) (vid : String) :
    List (ProcessingResultRow × Video) :=
  (db.results.filterMap (fun r =>
      (db.videos.find? (fun v => v.id == r.video_fk)).map (fun v => (r, v)))).filter
    (fun p => p.2.video_id == vid &&
      decide (now - cacheDays * secondsPerDay < p.1.created_at))

/-- `ORDER BY created_at DESC LIMIT 1`: the candidate with the greatest
`created_at` (ties resolved arbitrarily, as in SQL). -/
def pickLatest : List (ProcessingResultRow × Video) →
    Option (ProcessingResultRow × Video)
  | [] => none
  | p :: ps =>
    match pickLatest ps with
    | none => some p
    | some q => if q.1.created_at > p.1.created_at then some q else some p

/-- `get_cached_result(video_url, cache_days, db)` (main.py lines 376-433):
the most recent processing result for the video that is strictly younger
than the cutoff, or `none`. -/
def getCachedResult (db : DB) (now : Int) (cacheDays : Int) (vid : String) :
    Option (ProcessingResultRow × Video) :=
  pickLatest (candidatePairs db now cacheDays vid)

/-- The cache decision of the streaming endpoint. -/
inductive CacheDecision where
  | useCache (r : ProcessingResultRow) (v : Video)
  | runFresh
deriving DecidableEq, Repr

/-- The cache gate of `event_generator` (main.py lines 481-491): when
`force` is set the lookup is skipped entirely; otherwise the cached row is
used exactly when the 7-day lookup finds one. -/
def cacheGate (db : DB) (now : Int) (vid : String) (force : Bool) : CacheDecision :=
  if force then .runFresh
  else
    match getCachedResult db now 7 vid with
    | some (r, v) => .useCache r v
    | none => .runFresh

/-- The whole streaming endpoint `event_generator` as a function of the
store, the adapters and the disconnect signal: events emitted, the store
after the run (the generator performs no writes), and the task adapters
invoked.  The cached branch prepends the "Checking cache..." status
emitted before the lookup (main.py line 484) and ignores the disconnect
signal, exactly as the code does. -/
def streamRun (db : DB) (now : Int) (vid : String) (force : Bool)
    (ab : StreamAdapters) (disc : Nat → Bool) :
    List SSEEvent × DB × List AdapterCall :=
  if force then
    ((freshRun true ab disc).1, db, (freshRun true ab disc).2)
  else
    match getCachedResult db now 7 vid with
    | some (r, _v) =>
      (SSEEvent.statusEv "Checking cache..." :: cachedEvents r.lecture_notes, db, [])
    | none => ((freshRun false ab disc).1, db, (freshRun false ab disc).2)

/-- The metadata fields `process_video` reads out of
`final_state["video_metadata"]` to build the `Video` row. -/
structure VideoMetadataM where
  video_id : String
  video_url : String
  video_title : String
  channel_name : String
  duration : String
deriving DecidableEq, Repr

/-- Dict lookup with default, for reading metadata fields. -/
def dictGetD (d : Dict) (k : String) : String :=
  (dictGet d k).getD ""

/-- `VideoMetadata(**final_state["video_metadata"])`. -/
def metaOfDict (d : Dict) : VideoMetadataM :=
  { video_id := dictGetD d "video_id"
    video_url := dictGetD d "video_url"
    video_title := dictGetD d "video_title"
    channel_name := dictGetD d "channel_name"
    duration := dictGetD d "duration" }

/-- The save-to-database block of `process_video` (main.py lines 294-331):
if a `Video` row with the metadata's `video_id` exists, bump its
`times_processed` and `last_processed_at` in place; otherwise insert a new
row with `times_processed = 1`; in both cases append one new
`ProcessingResult` row for this run. -/
def persistResult (db : DB) (now : Int) (meta : VideoMetadataM)
    (fs : OverallState) : DB :=
  match db.videos.find? (fun v => v.video_id == meta.video_id) with
  | some v =>
    { videos := db.videos.map (fun w =>
        if w.id == v.id then
          { v with times_processed := v.times_processed + 1, last_processed_at := now }
        else w)
      results := db.results ++ [{
        video_fk := v.id
        transcript_text := fs.transcript
        lecture_notes := fs.lecture_notes
        ai_tools := fs.ai_tools
        agent_execution_order := fs.agent_execution_order
        created_at := now }]
      nextId := db.nextId }
  | none =>
    { videos := db.videos ++ [{
        id := db.nextId
        video_id := meta.video_id
        video_url := meta.video_url
        title := meta.video_title
        channel_name := meta.channel_name
        duration := meta.duration
        times_processed := 1
        last_processed_at := now }]
      results := db.results ++ [{
        video_fk := db.nextId
        transcript_text := fs.transcript
        lecture_notes := fs.lecture_notes
        ai_tools := fs.ai_tools
        agent_execution_order := fs.agent_execution_order
        created_at := now }]
      nextId := db.nextId + 1 }

/-- The `/api/process` batch endpoint (main.py lines 237-369): run the task
graph; on success persist the result and return it; on failure return the
error with the store untouched. -/
def processVideo (ad : Adapters) (db : DB) (now : Int) (url : String)
    (sumFirst : Bool) : Except String OverallState × DB × List AdapterCall :=
  match runGraph ad url sumFirst with
  | (.error e, calls) => (.error e, db, calls)
  | (.ok s, calls) =>
    (.ok s, persistResult db now (metaOfDict s.video_metadata) s, calls)

/-! ## Cache lookup lemmas -/

theorem pickLatest_eq_none : ∀ (l : List (ProcessingResultRow × Video)),
    pickLatest l = none → l = [] := by
  intro l h
  cases l with
  | nil => rfl
  | cons q ps =>
    rcases hpl : pickLatest ps with _ | q'
    · simp [pickLatest, hpl] at h
    · by_cases hgt : q'.1.created_at > q.1.created_at <;>
        simp [pickLatest, hpl, hgt] at h

theorem pickLatest_mem : ∀ (l : List (ProcessingResultRow × Video)) (p),
    pickLatest l = some p → p ∈ l := by
  intro l
  induction l with
  | nil => intro p h; simp [pickLatest] at h
  | cons q ps ih =>
    intro p h
    rcases hpl : pickLatest ps with _ | q'
    · simp only [pickLatest, hpl, Option.some_inj] at h
      subst h
      exact List.mem_cons_self q ps
    · by_cases hgt : q'.1.created_at > q.1.created_at
      · simp only [pickLatest, hpl, if_pos hgt, Option.some_inj] at h
        subst h
        exact List.mem_cons_of_mem q (ih _ hpl)
      · simp only [pickLatest, hpl, if_neg hgt, Option.some_inj] at h
        subst h
        exact List.mem_cons_self q ps

theorem pickLatest_max : ∀ (l : List (ProcessingResultRow × Video)) (p),
    pickLatest l = some p → ∀ q ∈ l, q.1.created_at ≤ p.1.created_at := by
  intro l
  induction l with
  | nil => intro p h; simp [pickLatest] at h
  | cons q ps ih =>
    intro p h x hx
    rcases hpl : pickLatest ps with _ | q'
    · simp only [pickLatest, hpl, Option.some_inj] at h
      subst h
      rcases List.mem_cons.mp hx with hx | hx
      · subst hx; exact le_rfl
      · rw [pickLatest_eq_none ps hpl] at hx
        simp at hx
    · by_cases hgt : q'.1.created_at > q.1.created_at
      · simp only [pickLatest, hpl, if_pos hgt, Option.some_inj] at h
        subst h
        rcases List.mem_cons.mp hx with hx | hx
        · subst hx; exact le_of_lt hgt
        · exact ih _ hpl x hx
      · simp only [pickLatest, hpl, if_neg hgt, Option.some_inj] at h
        subst h
        rcases List.mem_cons.mp hx with hx | hx
        · subst hx; exact le_rfl
        · exact le_trans (ih q' hpl x hx) (not_lt.mp hgt)

/-- Membership in the cache query's candidate set, characterised by the
row-level conditions of the SQL query. -/
theorem candidatePairs_mem (db : DB) (now : Int) (cacheDays : Int) (vid : String)
    (r : ProcessingResultRow) (v : Video) :
    (r, v) ∈ candidatePairs db now cacheDays vid ↔
      r ∈ db.results ∧
      db.videos.find? (fun w => w.id == r.video_fk) = some v ∧
      v.video_id = vid ∧
      now - cacheDays * secondsPerDay < r.created_at := by
  unfold candidatePairs
  rw [List.mem_filter]
  constructor
  · rintro ⟨hmem, hcond⟩
    rcases List.mem_filterMap.mp hmem with ⟨r', hr', hf⟩
    rcases Option.map_eq_some'.mp hf with ⟨v', hfind, heq⟩
    rcases Prod.mk.injEq .. ▸ heq with ⟨h1, h2⟩
    subst h1; subst h2
    simp only [Bool.and_eq_true, beq_iff_eq, decide_eq_true_eq] at hcond
    exact ⟨hr', hfind, hcond.1, hcond.2⟩
  · rintro ⟨hr, hfind, hvid, hage⟩
    refine ⟨List.mem_filterMap.mpr ⟨r, hr, by rw [hfind]; rfl⟩, ?_⟩
    simp only [Bool.and_eq_true, beq_iff_eq, decide_eq_true_eq]
    exact ⟨hvid, hage⟩

/-! ## C3: the cache decision -/

/-- A stored video row used in concrete runs. -/
def vAbc : Video :=
  { id := 1, video_id := "abc", video_url := "u", title := "t",
    channel_name := "c", duration := "d", times_processed := 1,
    last_processed_at := 0 }

/-- A stored processing result for `vAbc` created at time `t`. -/
def rowAt (t : Int) : ProcessingResultRow :=
  { video_fk := 1, transcript_text := "tx", lecture_notes := "n",
    ai_tools := [], agent_execution_order := [], created_at := t }

/-- A store holding one result for `vAbc` created at time 0. -/
def dbOneRow : DB := { videos := [vAbc], results := [rowAt 0], nextId := 2 }

/-- Counterexample to C3 as stated: at `now` exactly 7 days after the
stored record's timestamp, `now - timestamp ≤ 7 days` holds, yet the code
takes the fresh path — the SQL comparison is strict, so a record exactly
7 days old is treated as stale. -/
theorem C3_counterexample :
    (7 * secondsPerDay : Int) - (rowAt 0).created_at ≤ 7 * secondsPerDay ∧
    cacheGate dbOneRow (7 * secondsPerDay) "abc" false = .runFresh := by
  constructor
  · simp [rowAt]
  · rfl

/-- C3 (amended): with a 7-day window, `force` always takes the fresh
path; otherwise a cached row is used exactly when a stored result strictly
younger than 7 days exists for the video, and the row used is the most
recent among the qualifying ones.  A record exactly 7 days old does not
qualify (strict inequality). -/
theorem C3_cache_gate (db : DB) (now : Int) (vid : String) :
    cacheGate db now vid true = .runFresh ∧
    (∀ r v, cacheGate db now vid false = .useCache r v →
      r ∈ db.results ∧
      db.videos.find? (fun w => w.id == r.video_fk) = some v ∧
      v.video_id = vid ∧
      now - r.created_at < 7 * secondsPerDay ∧
      (∀ r' v', r' ∈ db.results →
        db.videos.find? (fun w => w.id == r'.video_fk) = some v' →
        v'.video_id = vid → now - r'.created_at < 7 * secondsPerDay →
        r'.created_at ≤ r.created_at)) ∧
    (∀ r' v', r' ∈ db.results →
      db.videos.find? (fun w => w.id == r'.video_fk) = some v' →
      v'.video_id = vid → now - r'.created_at < 7 * secondsPerDay →
      ∃ r v, cacheGate db now vid false = .useCache r v) := by
  refine ⟨rfl, ?_, ?_⟩
  · intro r v h
    rcases hg : getCachedResult db now 7 vid with _ | p
    · simp [cacheGate, hg] at h
    · rcases p with ⟨pr, pv⟩
      simp only [cacheGate, Bool.false_eq_true, ite_false, hg,
        CacheDecision.useCache.injEq] at h
      obtain ⟨rfl, rfl⟩ := h
      have hmem := pickLatest_mem _ _ hg
      rw [candidatePairs_mem] at hmem
      obtain ⟨hr, hfind, hvid, hage⟩ := hmem
      refine ⟨hr, hfind, hvid, by omega, ?_⟩
      intro r' v' hr' hfind' hvid' hage'
      have hmem' : (r', v') ∈ candidatePairs db now 7 vid :=
        (candidatePairs_mem db now 7 vid r' v').mpr ⟨hr', hfind', hvid', by omega⟩
      exact pickLatest_max _ _ hg (r', v') hmem'
  · intro r' v' hr' hfind' hvid' hage'
    have hmem' : (r', v') ∈ candidatePairs db now 7 vid :=
      (candidatePairs_mem db now 7 vid r' v').mpr ⟨hr', hfind', hvid', by omega⟩
    rcases hg : getCachedResult db now 7 vid with _ | p
    · rw [pickLatest_eq_none _ hg] at hmem'
      simp at hmem'
    · exact ⟨p.1, p.2, by simp [cacheGate, hg]⟩

/-- A store whose single result is 6 days old at `now = 7 days`. -/
def dbSixDays : DB :=
  { videos := [vAbc], results := [rowAt secondsPerDay], nextId := 2 }

/-- Witness for C3 (amended): a 6-day-old record is served from cache
unless `force` is set. -/
theorem C3_cache_gate_witness :
    cacheGate dbSixDays (7 * secondsPerDay) "abc" true = .runFresh ∧
    ∃ r v, cacheGate dbSixDays (7 * secondsPerDay) "abc" false = .useCache r v := by
  refine ⟨(C3_cache_gate dbSixDays (7 * secondsPerDay) "abc").1, ?_⟩
  exact (C3_cache_gate dbSixDays (7 * secondsPerDay) "abc").2.2
    (rowAt secondsPerDay) vAbc (by simp [dbSixDays]) rfl rfl
    (by norm_num [rowAt, secondsPerDay])

/-! ## C4: persistence of successful fresh runs -/

/-- An empty store. -/
def dbEmpty : DB := { videos := [], results := [], nextId := 1 }

/-- Counterexample to C4 as stated: a successful fresh run through the
streaming endpoint (the stream terminates with the `complete` event)
leaves the store untouched — no result record is persisted on the
streaming path. -/
theorem C4_counterexample :
    ((streamRun dbEmpty 0 "abc" false abOk discNever).1).getLast? =
      some .completeEv ∧
    (streamRun dbEmpty 0 "abc" false abOk discNever).2.1 = dbEmpty ∧
    dbEmpty.results = [] := by
  refine ⟨?_, rfl, rfl⟩
  rfl

/-- C4 (amended): the batch interface persists exactly one new result row
(carrying this run's lecture notes) before returning whenever the graph
run succeeds; the streaming endpoint, by contrast, never writes to the
store on any path. -/
theorem C4_persistence (ad : Adapters) (db : DB) (now : Int) (url : String)
    (sumFirst : Bool) (s : OverallState)
    (h : (processVideo ad db now url sumFirst).1 = .ok s) :
    (∃ row, (processVideo ad db now url sumFirst).2.1.results =
        db.results ++ [row] ∧
      row.lecture_notes = s.lecture_notes ∧ row.created_at = now) ∧
    ∀ (db' : DB) (now' : Int) (vid : String) (force : Bool)
      (ab : StreamAdapters) (disc : Nat → Bool),
      (streamRun db' now' vid force ab disc).2.1 = db' := by
  constructor
  · rcases hrg : runGraph ad url sumFirst with ⟨res, calls⟩
    cases res with
    | error e =>
      simp only [processVideo, hrg] at h
      exact absurd h (by simp)
    | ok s' =>
      simp only [processVideo, hrg, Except.ok.injEq] at h
      subst h
      simp only [processVideo, hrg]
      unfold persistResult
      rcases hfv : db.videos.find?
          (fun w => w.video_id == (metaOfDict s'.video_metadata).video_id) with _ | v <;>
        simp only [hfv]
      · exact ⟨_, rfl, rfl, rfl⟩
      · exact ⟨_, rfl, rfl, rfl⟩
  · intro db' now' vid force ab disc
    cases force
    · simp only [streamRun, Bool.false_eq_true, ite_false]
      rcases getCachedResult db' now' 7 vid with _ | p
      · rfl
      · rfl
    · rfl

/-- The final state of a fully successful concrete run of `okAdapters`. -/
def sOkFinal : OverallState :=
  { video_url := "url"
    transcript := "transcript text"
    video_metadata := [("video_title", "t")]
    lecture_notes := "notes"
    ai_tools := []
    concepts := []
    content_type := []
    agent_execution_order := ["fetch_transcript", "summarize", "extract_concepts"] }

/-- Witness for C4 (amended) at a concrete successful batch run. -/
theorem C4_persistence_witness :
    ∃ row, (processVideo okAdapters dbEmpty 5 "url" true).2.1.results =
        dbEmpty.results ++ [row] ∧
      row.lecture_notes = sOkFinal.lecture_notes ∧ row.created_at = 5 :=
  (C4_persistence okAdapters dbEmpty 5 "url" true sOkFinal rfl).1

/-! ## C5 counterexample: the cached path ignores the cancel signal -/

/-- Counterexample to C5 as stated: on the cached replay path the
generator performs no disconnect check at all — with the client
disconnected from before the first emission, content-chunk events are
still delivered. -/
theorem C5_counterexample :
    EventKind.chunkK ∈
      kindsOf (streamRun dbOneRow 0 "abc" false abOk discAlways).1 := by
  decide

/-! ## C7: cached replay chunking round-trip -/

theorem filterMap_chunk_map (l : List (List Char)) :
    (l.map (fun c => SSEEvent.chunk (String.mk c))).filterMap
      (fun e => match e with | SSEEvent.chunk s => some s | _ => none) =
      l.map (fun c => String.mk c) := by
  induction l with
  | nil => rfl
  | cons c rest ih =>
    simp only [List.map_cons, List.filterMap_cons, ih]

theorem chunkPayloads_cached (notes : String) :
    chunkPayloads (cachedEvents notes) =
      (chunkNotes notes.data).map (fun c => String.mk c) := by
  unfold chunkPayloads cachedEvents
  rw [List.filterMap_append, List.filterMap_append, filterMap_chunk_map]
  simp [List.filterMap_cons]

/-- C7: replaying a cached record emits, after the status/cache/metadata
prelude, the stored lecture notes re-sliced into consecutive chunks of
exactly `chunkSize = 50` characters (except possibly a shorter, nonempty
final chunk), in order, whose concatenation is exactly the stored string;
the store is untouched and no task adapter is invoked. -/
theorem C7_cached_replay (db : DB) (now : Int) (vid : String)
    (ab : StreamAdapters) (disc : Nat → Bool) (r : ProcessingResultRow)
    (v : Video) (h : getCachedResult db now 7 vid = some (r, v)) :
    streamRun db now vid false ab disc =
      (SSEEvent.statusEv "Checking cache..." :: cachedEvents r.lecture_notes,
       db, []) ∧
    String.mk (((chunkPayloads (cachedEvents r.lecture_notes)).map
      String.data).flatten) = r.lecture_notes ∧
    (∀ p ∈ chunkPayloads (cachedEvents r.lecture_notes),
      1 ≤ p.length ∧ p.length ≤ chunkSize) ∧
    (∀ p ∈ (chunkPayloads (cachedEvents r.lecture_notes)).dropLast,
      p.length = chunkSize) := by
  obtain ⟨hjoin, hlen, hlast⟩ := chunkNotes_spec r.lecture_notes.data
  refine ⟨?_, ?_, ?_, ?_⟩
  · simp only [streamRun, Bool.false_eq_true, ite_false, h]
  · rw [chunkPayloads_cached]
    have hdata : ((chunkNotes r.lecture_notes.data).map
        (fun c => String.mk c)).map String.data = chunkNotes r.lecture_notes.data := by
      rw [List.map_map]
      exact List.map_id _
    rw [hdata, hjoin]
  · intro p hp
    rw [chunkPayloads_cached] at hp
    rcases List.mem_map.mp hp with ⟨c, hc, rfl⟩
    obtain ⟨hne, hle⟩ := hlen c hc
    exact ⟨List.length_pos.mpr hne, hle⟩
  · intro p hp
    rw [chunkPayloads_cached, ← List.map_dropLast] at hp
    rcases List.mem_map.mp hp with ⟨c, hc, rfl⟩
    exact hlast c hc

/-- Witness for C7 at a concrete stored record. -/
theorem C7_cached_replay_witness :
    streamRun dbOneRow 0 "abc" false abOk discNever =
      (SSEEvent.statusEv "Checking cache..." :: cachedEvents (rowAt 0).lecture_notes,
       dbOneRow, []) ∧
    String.mk (((chunkPayloads (cachedEvents (rowAt 0).lecture_notes)).map
      String.data).flatten) = (rowAt 0).lecture_notes ∧
    (∀ p ∈ chunkPayloads (cachedEvents (rowAt 0).lecture_notes),
      1 ≤ p.length ∧ p.length ≤ chunkSize) ∧
    (∀ p ∈ (chunkPayloads (cachedEvents (rowAt 0).lecture_notes)).dropLast,
      p.length = chunkSize) :=
  C7_cached_replay dbOneRow 0 "abc" abOk discNever (rowAt 0) vAbc rfl

/-! ## C9: root-task failure launches no leaf and persists nothing -/

/-- C9: when the transcript fetch fails, the batch run reports the error
immediately with the store untouched and only the fetch adapter invoked,
and the streaming fresh path likewise invokes only the fetch adapter and
terminates with an error event — neither leaf adapter runs and no result
record is ever persisted. -/
theorem C9_root_failure (ad : Adapters) (db : DB) (now : Int) (url : String)
    (sumFirst : Bool) (e : String) (hb : ad.fetch url = .error e)
    (ab : StreamAdapters) (disc : Nat → Bool) (force : Bool) (e' : String)
    (hs : ab.fetch = .error e') :
    (processVideo ad db now url sumFirst).1 = .error e ∧
    (processVideo ad db now url sumFirst).2.1 = db ∧
    (processVideo ad db now url sumFirst).2.2 = [.fetch] ∧
    AdapterCall.summarize ∉ (processVideo ad db now url sumFirst).2.2 ∧
    AdapterCall.extract ∉ (processVideo ad db now url sumFirst).2.2 ∧
    (freshRun force ab disc).2 = [.fetch] ∧
    AdapterCall.summarize ∉ (freshRun force ab disc).2 ∧
    AdapterCall.extract ∉ (freshRun force ab disc).2 ∧
    (freshRun force ab disc).1.getLast? = some (.errorEv e') := by
  have hpv : processVideo ad db now url sumFirst = (.error e, db, [.fetch]) := by
    unfold processVideo runGraph
    rw [hb]
  have hfr : (freshRun force ab disc).2 = [.fetch] := by
    unfold freshRun
    rw [hs]
  refine ⟨by rw [hpv], by rw [hpv], by rw [hpv], by rw [hpv]; simp,
    by rw [hpv]; simp, hfr, by rw [hfr]; simp, by rw [hfr]; simp, ?_⟩
  rw [freshRun_fetch_err force ab disc e' hs]
  exact List.getLast?_concat _

/-- Batch adapters whose transcript fetch always fails. -/
def failFetchAdapters : Adapters :=
  { fetch := fun _ => .error "no transcript"
    summarize := fun _ _ => .ok "n"
    extract := fun _ _ => .ok ([], [], []) }

/-- Streaming adapters whose transcript fetch fails. -/
def abFetchFail : StreamAdapters :=
  { fetch := .error "no transcript"
    sumChunks := []
    sumErr := none
    extractRes := .ok ([], [], []) }

/-- Witness for C9 at a concrete failing fetch. -/
theorem C9_root_failure_witness :
    (processVideo failFetchAdapters dbEmpty 0 "url" true).1 =
      .error "no transcript" ∧
    (processVideo failFetchAdapters dbEmpty 0 "url" true).2.1 = dbEmpty ∧
    (freshRun false abFetchFail discNever).2 = [.fetch] := by
  have h := C9_root_failure failFetchAdapters dbEmpty 0 "url" true
    "no transcript" rfl abFetchFail discNever false "no transcript" rfl
  exact ⟨h.1, h.2.1, h.2.2.2.2.2.1⟩

/-! ## C10: re-processing an existing video -/

/-- C10: when the batch endpoint processes a video whose `video_id` is
already stored, the existing `Video` row is changed only by incrementing
`times_processed` by one and setting `last_processed_at`; every other row
and every other field is untouched, no second `Video` row is created (the
table keeps its length and the next primary key is not consumed), and
exactly one new `ProcessingResult` row for this run is appended. -/
theorem C10_video_upsert (db : DB) (now : Int) (meta : VideoMetadataM)
    (fs : OverallState) (v : Video)
    (hfind : db.videos.find? (fun w => w.video_id == meta.video_id) = some v)
    (hnodup : (db.videos.map (fun w => w.id)).Nodup) :
    (persistResult db now meta fs).videos =
      db.videos.map (fun w =>
        if w.id == v.id then
          { w with times_processed := w.times_processed + 1,
                   last_processed_at := now }
        else w) ∧
    (persistResult db now meta fs).videos.length = db.videos.length ∧
    (persistResult db now meta fs).results = db.results ++ [{
        video_fk := v.id
        transcript_text := fs.transcript
        lecture_notes := fs.lecture_notes
        ai_tools := fs.ai_tools
        agent_execution_order := fs.agent_execution_order
        created_at := now }] ∧
    (persistResult db now meta fs).nextId = db.nextId := by
  have hv : v ∈ db.videos := List.mem_of_find?_eq_some hfind
  unfold persistResult
  rw [hfind]
  refine ⟨?_, by simp, rfl, rfl⟩
  apply List.map_congr_left
  intro w hw
  by_cases hid : w.id == v.id
  · have hwv : w = v := by
      have := List.inj_on_of_nodup_map hnodup hw hv (beq_iff_eq.mp hid)
      exact this
    rw [if_pos hid, if_pos hid, hwv]
  · rw [if_neg hid, if_neg hid]

/-- Metadata matching the stored video `vAbc`. -/
def metaAbc : VideoMetadataM :=
  { video_id := "abc", video_url := "u", video_title := "t",
    channel_name := "c", duration := "d" }

/-- Witness for C10 at a concrete store holding `vAbc`. -/
theorem C10_video_upsert_witness :
    (persistResult dbOneRow 9 metaAbc (initialState "u")).videos.length =
      dbOneRow.videos.length ∧
    (persistResult dbOneRow 9 metaAbc (initialState "u")).nextId =
      dbOneRow.nextId := by
  have h := C10_video_upsert dbOneRow 9 metaAbc (initialState "u") vAbc rfl
    (by decide)
  exact ⟨h.2.1, h.2.2.2⟩

end LectureFlow
